import Mathlib

/-
  Verification development for the pygame chessboard UI (src/README.py).
  The interaction core (coordinate mapper + drag/promotion state machine)
  is embedded as pure Lean functions; the external rules engine
  (python-chess) is abstracted as read-only data plus emitted commands.
-/

namespace ChessUI

-- ---------------------------- Config (src/README.py lines 9-13, 49-51) ----

def BOARD_SIZE : Nat := 8

def SQUARE_SIZE : Nat := 72

def OUTER_MARGIN : Nat := 40

def LABEL_GAP : Nat := 28

def BOARD_PIX : Nat := BOARD_SIZE * SQUARE_SIZE

def WIN_W : Nat := OUTER_MARGIN * 2 + BOARD_PIX

def WIN_H : Nat := OUTER_MARGIN * 2 + LABEL_GAP + BOARD_PIX

-- python-chess piece-type constants (PAWN=1 .. KING=6)
def PAWN : Nat := 1

def KNIGHT : Nat := 2

def BISHOP : Nat := 3

def ROOK : Nat := 4

def QUEEN : Nat := 5

def KING : Nat := 6

-- python-chess square helpers: square = rank*8 + file
def square_file (sq : Nat) : Nat := sq % 8

def square_rank (sq : Nat) : Nat := sq / 8

def chess_square (file rank : Nat) : Nat := rank * 8 + file

-- ---------------------------- Coordinate mapper (lines 64-97) -------------

-- model_to_display (lines 64-74): python-chess square -> (row, col) grid
def model_to_display (sq : Nat) (flipped : Bool) : Nat × Nat :=
  if !flipped then (7 - square_rank sq, square_file sq)
  else (square_rank sq, 7 - square_file sq)

-- display_to_model (lines 76-86): (row, col) -> square index or none.
-- Rows and columns from square_at_pixel are non-negative, so the source's
-- lower-bound test 0 <= r, 0 <= c is carried by the Nat type.
def display_to_model (r c : Nat) (flipped : Bool) : Option Nat :=
  if r < 8 ∧ c < 8 then
    if !flipped then some (chess_square c (7 - r))
    else some (chess_square (7 - c) r)
  else none

-- square_at_pixel (lines 88-97): mouse pixel -> (row, col) or none.
-- Python floor division on the non-negative offsets is Nat division.
def square_at_pixel (pos : Int × Int) : Option (Nat × Nat) :=
  let bx : Int := pos.1 - (OUTER_MARGIN : Int)
  let yb : Int := pos.2 - (OUTER_MARGIN : Int)
  if 0 ≤ bx ∧ bx < (BOARD_PIX : Int) ∧ 0 ≤ yb ∧ yb < (BOARD_PIX : Int) then
    some (yb.toNat / SQUARE_SIZE, bx.toNat / SQUARE_SIZE)
  else none

-- ---------------------------- Rules-engine abstraction ---------------------

-- A python-chess Piece: color (true = white, matching chess.WHITE) and type.
structure Piece where
  color : Bool
  ptype : Nat
deriving DecidableEq

-- A python-chess Move: from/to squares and optional promotion piece type.
structure Move where
  from_square : Nat
  to_square : Nat
  promotion : Option Nat
deriving DecidableEq

-- Read-only snapshot of the python-chess Board consulted by the UI:
-- piece placement, side to move, current legal moves, and the move stack
-- (the event loop only tests the stack for emptiness).
structure Board where
  pieceAt : Nat → Option Piece
  turn : Bool
  legalMoves : List Move
  moveStack : List Move

-- Commands the UI issues to the rules engine (board.push / board.pop /
-- board.reset in the source).
inductive Cmd
  | push (m : Move)
  | pop
  | reset
deriving DecidableEq

-- legal_moves_from (lines 99-101)
def legal_moves_from (b : Board) (src : Nat) : List Move :=
  b.legalMoves.filter fun m => m.from_square == src

-- move_for (lines 103-109): first legal move matching src, dst and
-- promotion.  src and dst are optional because the promotion handler can
-- pass the (cleared) pending squares; comparison with none is then false,
-- exactly like the Python comparison of an int field with None.
-- The source's double promotion test (via a UCI round trip) is equivalent
-- to the plain field comparison kept here.
def move_for (b : Board) (src dst : Option Nat) (promotion : Option Nat) : Option Move :=
  b.legalMoves.find? fun m =>
    some m.from_square == src && some m.to_square == dst && m.promotion == promotion

-- needs_promotion (lines 111-117)
def needs_promotion (b : Board) (src dst : Nat) : Bool :=
  match b.pieceAt src with
  | none => false
  | some piece => piece.ptype == PAWN && (square_rank dst == 0 || square_rank dst == 7)

-- Python truthiness of an Optional[int] promotion field (line 364).
def truthy (o : Option Nat) : Bool :=
  match o with
  | none => false
  | some k => k != 0

-- ---------------------------- Promotion overlay geometry (lines 228-259) --

def panel_w : Nat := SQUARE_SIZE * 4 + 48

def panel_h : Nat := SQUARE_SIZE + 64

def panel_left : Nat := (WIN_W - panel_w) / 2

def panel_top : Nat := (WIN_H - panel_h) / 2

def promo_piece_order : List Nat := [QUEEN, ROOK, BISHOP, KNIGHT]

-- The four selectable boxes returned by draw_promotion_overlay:
-- top-left corner and the piece type of each box.
def promotion_boxes : List ((Nat × Nat) × Nat) :=
  promo_piece_order.enum.map fun ic =>
    ((panel_left + 24 + ic.1 * (SQUARE_SIZE + 16), panel_top + 36), ic.2)

-- pygame Rect.collidepoint on a SQUARE_SIZE x SQUARE_SIZE box: the top and
-- left edges are inside, the bottom and right edges are not.
def collide (topleft : Nat × Nat) (p : Int × Int) : Bool :=
  decide ((topleft.1 : Int) ≤ p.1 ∧ p.1 < (topleft.1 : Int) + (SQUARE_SIZE : Int) ∧
          (topleft.2 : Int) ≤ p.2 ∧ p.2 < (topleft.2 : Int) + (SQUARE_SIZE : Int))

-- ---------------------------- Interaction state (lines 276-287) -----------

-- The loose mutable flags of main(): the dragging dict, the promotion dict,
-- plus the rendering flags and the running flag.
structure UiState where
  dragActive : Bool
  dragSq : Option Nat
  dragPos : Int × Int
  dragMoves : List Move
  promoPending : Bool
  promoSrc : Option Nat
  promoDst : Option Nat
  flipped : Bool
  showHints : Bool
  running : Bool
deriving DecidableEq

-- Initial state set up by main() (lines 273-287).
def initState : UiState :=
  { dragActive := false, dragSq := none, dragPos := (0, 0), dragMoves := []
  , promoPending := false, promoSrc := none, promoDst := none
  , flipped := false, showHints := true, running := true }

-- Keyboard keys distinguished by the event loop.
inductive Key
  | kEsc | kF | kU | kR | kS | kH | kQ | kB | kN | kOther
deriving DecidableEq

-- Input events fed to the loop.  Buttons are numbered as in pygame
-- (1 = left).  Positions are window pixel coordinates.
inductive Event
  | quit
  | keydown (k : Key)
  | mouseDown (button : Nat) (pos : Int × Int)
  | mouseMotion (pos : Int × Int)
  | mouseUp (button : Nat) (pos : Int × Int)
deriving DecidableEq

-- ---------------------------- Event handlers (lines 303-392) ---------------

-- The promotion hotkey map (lines 323-328).  It includes kR -> ROOK just
-- like the source, although that entry is shadowed by the reset branch of
-- the surrounding elif chain.
def key_map (k : Key) : Option Nat :=
  match k with
  | Key.kQ => some QUEEN
  | Key.kR => some ROOK
  | Key.kB => some BISHOP
  | Key.kN => some KNIGHT
  | _ => none

-- Shared tail of the two promotion-choice handlers (lines 331-335 and
-- 387-391): look up the move, push it when found, clear the pending state.
def finishPromotion (b : Board) (st : UiState) (ptype : Nat) : UiState × List Cmd :=
  ({st with promoPending := false, promoSrc := none, promoDst := none},
   match move_for b st.promoSrc st.promoDst (some ptype) with
   | some mv => [Cmd.push mv]
   | none => [])

-- KEYDOWN handling (lines 307-335).  The screenshot key has no effect on
-- the model.  Note that the global branches are tested before the
-- promotion branch, mirroring the source's elif chain.
def handleKeydown (b : Board) (st : UiState) (k : Key) : UiState × List Cmd :=
  if k = Key.kEsc then ({st with running := false}, [])
  else if k = Key.kF then ({st with flipped := !st.flipped}, [])
  else if k = Key.kU then (st, if b.moveStack.isEmpty then [] else [Cmd.pop])
  else if k = Key.kR then (st, [Cmd.reset])
  else if k = Key.kS then (st, [])
  else if k = Key.kH then ({st with showHints := !st.showHints}, [])
  else if st.promoPending then
    match key_map k with
    | some ptype => finishPromotion b st ptype
    | none => (st, [])
  else (st, [])

-- MOUSEBUTTONDOWN with button 1 while no promotion pending (lines 337-349).
def handleMouseDown (b : Board) (st : UiState) (p : Int × Int) : UiState × List Cmd :=
  match square_at_pixel p with
  | none => (st, [])
  | some rc =>
    match display_to_model rc.1 rc.2 st.flipped with
    | none => (st, [])
    | some sq =>
      match b.pieceAt sq with
      | none => (st, [])
      | some piece =>
        if piece.color = b.turn then
          ({st with dragActive := true, dragSq := some sq, dragPos := p,
                    dragMoves := legal_moves_from b sq}, [])
        else (st, [])

-- Reset of the dragging dict (lines 374-378).
def resetDrag (st : UiState) : UiState :=
  {st with dragActive := false, dragSq := none, dragPos := (0, 0), dragMoves := []}

-- MOUSEBUTTONUP with button 1 (lines 354-378).  The display_to_model-none
-- branch is unreachable because square_at_pixel only yields rows and
-- columns below 8 (claim10_resolved_cell_valid); the drag is discarded
-- there like in every other aborted-gesture branch.
def handleMouseUp (b : Board) (st : UiState) (p : Int × Int) : UiState × List Cmd :=
  if st.dragActive && !st.promoPending then
    match square_at_pixel p, st.dragSq with
    | some rc, some src =>
      match display_to_model rc.1 rc.2 st.flipped with
      | some dst =>
        if needs_promotion b src dst then
          if b.legalMoves.any (fun m =>
              m.from_square == src && m.to_square == dst && truthy m.promotion) then
            (resetDrag {st with promoPending := true, promoSrc := some src,
                                promoDst := some dst}, [])
          else (resetDrag st, [])
        else
          match move_for b (some src) (some dst) none with
          | some m => (resetDrag st, [Cmd.push m])
          | none => (resetDrag st, [])
      | none => (resetDrag st, [])
    | _, _ => (resetDrag st, [])
  else (st, [])

-- MOUSEBUTTONDOWN with button 1 while promotion pending (lines 380-392):
-- first box containing the click wins; a miss does nothing.
def handlePromoClick (b : Board) (st : UiState) (p : Int × Int) : UiState × List Cmd :=
  match promotion_boxes.find? (fun bx => collide bx.1 p) with
  | some bx => finishPromotion b st bx.2
  | none => (st, [])

-- One event of the loop (lines 303-392): the resulting UI state plus the
-- commands issued to the rules engine while processing it.
def stepCmds (b : Board) (st : UiState) (e : Event) : UiState × List Cmd :=
  match e with
  | Event.quit => ({st with running := false}, [])
  | Event.keydown k => handleKeydown b st k
  | Event.mouseDown button p =>
    if button = 1 && !st.promoPending then handleMouseDown b st p
    else if button = 1 && st.promoPending then handlePromoClick b st p
    else (st, [])
  | Event.mouseMotion p =>
    if st.dragActive then ({st with dragPos := p}, []) else (st, [])
  | Event.mouseUp button p =>
    if button = 1 then handleMouseUp b st p else (st, [])

-- One event including the engine's reaction: exec interprets each command
-- (the rules engine is a black box, so it is a parameter).
def step (exec : Board → Cmd → Board) (s : Board × UiState) (e : Event) : Board × UiState :=
  ((stepCmds s.1 s.2 e).2.foldl exec s.1, (stepCmds s.1 s.2 e).1)

-- A whole sequence of events.
def run (exec : Board → Cmd → Board) (s : Board × UiState) (es : List Event) :
    Board × UiState :=
  es.foldl (step exec) s

-- Same, also accumulating every command issued along the way.
def runTrace (exec : Board → Cmd → Board) (s : Board × UiState × List Cmd)
    (es : List Event) : Board × UiState × List Cmd :=
  es.foldl (fun acc e =>
    ((stepCmds acc.1 acc.2.1 e).2.foldl exec acc.1,
     (stepCmds acc.1 acc.2.1 e).1,
     acc.2.2 ++ (stepCmds acc.1 acc.2.1 e).2)) s

-- ---------------------------- Hint rendering (lines 213-226, 406-407) -----

inductive Hint
  | dot
  | ring
deriving DecidableEq

-- draw_move_hints (lines 213-226): one indicator per cached legal move,
-- at its destination square; dot on an empty target, ring on a capture.
def draw_move_hints (b : Board) (legal_from_src : List Move) : List (Nat × Hint) :=
  legal_from_src.map fun m =>
    (m.to_square,
     match b.pieceAt m.to_square with
     | none => Hint.dot
     | some _ => Hint.ring)

-- The hint layer of a frame (lines 406-407): drawn only while dragging
-- with hints enabled and a non-empty cached move list.
def renderedHints (b : Board) (st : UiState) : List (Nat × Hint) :=
  if st.showHints && st.dragActive && !st.dragMoves.isEmpty then
    draw_move_hints b st.dragMoves
  else []

-- ---------------------------- Interaction-state predicates ----------------

-- The three spec states read off the loose flags: Idle, Dragging,
-- AwaitingPromotionChoice.
def isIdle (st : UiState) : Prop := st.dragActive = false ∧ st.promoPending = false

def isDragging (st : UiState) : Prop := st.dragActive = true

def isAwaiting (st : UiState) : Prop := st.promoPending = true

def exactlyOneState (st : UiState) : Prop :=
  (isIdle st ∧ ¬ isDragging st ∧ ¬ isAwaiting st) ∨
  (isDragging st ∧ ¬ isIdle st ∧ ¬ isAwaiting st) ∨
  (isAwaiting st ∧ ¬ isIdle st ∧ ¬ isDragging st)

def mutex (st : UiState) : Prop := ¬(st.dragActive = true ∧ st.promoPending = true)

-- ---------------------------- Claim C3: invalid gestures -------------------

-- A left-button release that the event loop must treat as an aborted
-- gesture: it resolves outside the board, or to a destination square that
-- no legal move from the current drag source reaches.
def invalid_release (b : Board) (st : UiState) (e : Event) : Bool :=
  match e with
  | Event.mouseUp button q =>
    button == 1 &&
    (match square_at_pixel q with
     | none => true
     | some rc =>
       match display_to_model rc.1 rc.2 st.flipped with
       | none => true
       | some dst =>
         b.legalMoves.all fun m =>
           !(st.dragSq == some m.from_square && m.to_square == dst))
  | _ => false

-- A sequence of such gestures, each invalid with respect to the state it
-- is processed in (the board stays fixed because no command is emitted).
def invalid_gesture_seq (b : Board) (st : UiState) : List Event → Bool
  | [] => true
  | e :: es => invalid_release b st e && invalid_gesture_seq b (stepCmds b st e).1 es

-- ---------------------------- Concrete fixtures ---------------------------

-- A small concrete engine snapshot used by witnesses: white pawns on 12
-- (e2) and 52 (e7), a black pawn on 21 (f3); the pawn on 12 may move to 20
-- or capture on 21, the pawn on 52 may promote on 60 (e8); one move played.
def pieces0 : Nat → Option Piece := fun sq =>
  if sq = 12 then some ⟨true, PAWN⟩
  else if sq = 21 then some ⟨false, PAWN⟩
  else if sq = 52 then some ⟨true, PAWN⟩
  else none

def board0 : Board :=
  { pieceAt := pieces0
  , turn := true
  , legalMoves := [⟨12, 20, none⟩, ⟨12, 21, none⟩, ⟨52, 60, some QUEEN⟩, ⟨52, 60, some ROOK⟩]
  , moveStack := [⟨8, 16, none⟩] }

-- A no-op engine, enough for runs that emit no command.
def exec0 : Board → Cmd → Board := fun b _ => b

def stDrag : UiState :=
  {initState with dragActive := true, dragSq := some 12,
                  dragMoves := legal_moves_from board0 12}

def stDrag52 : UiState :=
  {initState with dragActive := true, dragSq := some 52}

def stAwait : UiState :=
  {initState with promoPending := true, promoSrc := some 52, promoDst := some 60}

-- ---------------------------- Claim C4: promotion completeness ------------

-- The two ways a promotion choice for piece kind can reach the pending
-- handlers: a selector hotkey that survives the elif chain (q, b, n), or a
-- left click inside the overlay box of that kind.
def ChoiceEvent (e : Event) (kind : Nat) : Prop :=
  (e = Event.keydown Key.kQ ∧ kind = QUEEN) ∨
  (e = Event.keydown Key.kB ∧ kind = BISHOP) ∨
  (e = Event.keydown Key.kN ∧ kind = KNIGHT) ∨
  (∃ p, e = Event.mouseDown 1 p ∧
    (promotion_boxes.find? fun bx => collide bx.1 p).map Prod.snd = some kind)

-- Events with no binding at all while the promotion overlay is open:
-- pointer motion, any pointer-up, a pointer-down that misses every overlay
-- box or uses another button, and an unbound key.
def OverlayNeutral (e : Event) : Prop :=
  (∃ p, e = Event.mouseMotion p) ∨
  (∃ n p, e = Event.mouseUp n p) ∨
  (∃ n p, e = Event.mouseDown n p ∧
    (n ≠ 1 ∨ promotion_boxes.find? (fun bx => collide bx.1 p) = none)) ∨
  e = Event.keydown Key.kOther

-- ============================ Theorems =============================

-- ---------------------------- Claims C1, C8, C10 ---------------------------

/-- Claim C1: for every square 0..63 and every orientation flag, converting
the square to a display cell and back is the identity:
display_to_model (model_to_display s f) f = some s. -/
theorem claim1_round_trip (sq : Nat) (f : Bool) (h : sq < 64) :
    display_to_model (model_to_display sq f).1 (model_to_display sq f).2 f = some sq := by
  cases f <;>
    simp [model_to_display, display_to_model, square_file, square_rank, chess_square] <;>
    omega

/-- Witness for claim C1 at a concrete square and orientation. -/
theorem claim1_round_trip_witness :
    display_to_model (model_to_display 52 true).1 (model_to_display 52 true).2 true
      = some 52 :=
  claim1_round_trip 52 true (by decide)

/-- Claim C8: square_at_pixel returns none exactly for pixels outside the
board's drawable rectangle (outer margin excluded), and inside it the cell
is determined by floor division: the preimage of cell (r, c) is exactly the
half-open pixel box of that cell. -/
theorem claim8_pixel_to_cell (x y : Int) (r c : Nat) :
    (square_at_pixel (x, y) = some (r, c) ↔
      (r < 8 ∧ c < 8 ∧
        (40 : Int) + 72 * c ≤ x ∧ x < 40 + 72 * (c + 1) ∧
        (40 : Int) + 72 * r ≤ y ∧ y < 40 + 72 * (r + 1))) ∧
    (square_at_pixel (x, y) = none ↔
      (x < 40 ∨ 616 ≤ x ∨ y < 40 ∨ 616 ≤ y)) := by
  constructor
  · simp only [square_at_pixel, OUTER_MARGIN, BOARD_PIX, BOARD_SIZE, SQUARE_SIZE]
    split
    · simp only [Option.some.injEq, Prod.mk.injEq]
      omega
    · simp only [reduceCtorEq, false_iff]
      omega
  · simp only [square_at_pixel, OUTER_MARGIN, BOARD_PIX, BOARD_SIZE, SQUARE_SIZE]
    split
    · simp only [reduceCtorEq, false_iff]
      omega
    · simp only [true_iff]
      omega

/-- Claim C10: whenever square_at_pixel yields a cell, that cell lies in
[0,8)×[0,8), so display_to_model on it never returns none (the None-check
branch guarding the pointer-down handler is unreachable). -/
theorem claim10_resolved_cell_valid (p : Int × Int) (r c : Nat) (f : Bool)
    (h : square_at_pixel p = some (r, c)) :
    r < 8 ∧ c < 8 ∧ display_to_model r c f ≠ none := by
  simp only [square_at_pixel, OUTER_MARGIN, BOARD_PIX, BOARD_SIZE, SQUARE_SIZE] at h
  split at h
  · simp only [Option.some.injEq, Prod.mk.injEq] at h
    obtain ⟨hr, hc⟩ := h
    have hr8 : r < 8 := by omega
    have hc8 : c < 8 := by omega
    refine ⟨hr8, hc8, ?_⟩
    unfold display_to_model
    rw [if_pos ⟨hr8, hc8⟩]
    cases f <;> simp
  · exact absurd h (by simp)

/-- Witness for claim C10 at a concrete in-board pixel. -/
theorem claim10_resolved_cell_valid_witness :
    (0 : Nat) < 8 ∧ (0 : Nat) < 8 ∧ display_to_model 0 0 false ≠ none :=
  claim10_resolved_cell_valid (40, 40) 0 0 false (by decide)

theorem finishPromotion_pending (b : Board) (st : UiState) (ptype : Nat) :
    (finishPromotion b st ptype).1.promoPending = false := rfl

theorem finishPromotion_drag (b : Board) (st : UiState) (ptype : Nat) :
    (finishPromotion b st ptype).1.dragActive = st.dragActive := rfl

theorem mutex_handleKeydown (b : Board) (st : UiState) (k : Key) (h : mutex st) :
    mutex (handleKeydown b st k).1 := by
  unfold handleKeydown
  split_ifs <;> try simpa [mutex] using h
  split
  · simp [mutex, finishPromotion]
  · simpa [mutex] using h

theorem handleMouseDown_pending (b : Board) (st : UiState) (p : Int × Int) :
    (handleMouseDown b st p).1.promoPending = st.promoPending := by
  unfold handleMouseDown
  repeat' split
  all_goals rfl

theorem mutex_handleMouseUp (b : Board) (st : UiState) (p : Int × Int) (h : mutex st) :
    mutex (handleMouseUp b st p).1 := by
  unfold handleMouseUp
  split
  · repeat' split
    all_goals simp [mutex, resetDrag]
  · exact h

theorem mutex_handlePromoClick (b : Board) (st : UiState) (p : Int × Int) (h : mutex st) :
    mutex (handlePromoClick b st p).1 := by
  unfold handlePromoClick
  split
  · simp [mutex, finishPromotion]
  · exact h

theorem mutex_step (b : Board) (st : UiState) (e : Event) (h : mutex st) :
    mutex (stepCmds b st e).1 := by
  cases e with
  | quit => simpa [stepCmds, mutex] using h
  | keydown k => exact mutex_handleKeydown b st k h
  | mouseDown button p =>
    simp only [stepCmds]
    split_ifs with h1 h2
    · have hp : st.promoPending = false := by
        rcases Bool.and_eq_true_iff.mp h1 with ⟨-, hnp⟩
        simpa using hnp
      simp [mutex, handleMouseDown_pending, hp]
    · exact mutex_handlePromoClick b st p h
    · exact h
  | mouseMotion p =>
    simp only [stepCmds]
    split
    · simpa [mutex] using h
    · exact h
  | mouseUp button p =>
    simp only [stepCmds]
    split
    · exact mutex_handleMouseUp b st p h
    · exact h

theorem mutex_run (exec : Board → Cmd → Board) (s : Board × UiState)
    (es : List Event) (h : mutex s.2) : mutex (run exec s es).2 := by
  induction es generalizing s with
  | nil => simpa [run] using h
  | cons e es ih =>
    have hstep : mutex (step exec s e).2 := mutex_step s.1 s.2 e h
    have : run exec s (e :: es) = run exec (step exec s e) es := by
      simp [run]
    rw [this]
    exact ih _ hstep

theorem mutex_exactlyOne (st : UiState) (h : mutex st) : exactlyOneState st := by
  unfold exactlyOneState isIdle isDragging isAwaiting
  unfold mutex at h
  cases hd : st.dragActive <;> cases hp : st.promoPending <;> simp_all

/-- Claim C2: starting from the initial state, after processing any
sequence of input events (with any rules engine), exactly one of Idle,
Dragging, AwaitingPromotionChoice holds: the dragging-active flag and the
promotion-pending flag are never both set. -/
theorem claim2_single_active_state (exec : Board → Cmd → Board) (b : Board)
    (es : List Event) : exactlyOneState (run exec (b, initState) es).2 :=
  mutex_exactlyOne _ (mutex_run exec (b, initState) es (by simp [mutex, initState]))

-- ---------------------------- Pointer-up characterization ------------------

theorem stepCmds_mouseUp (b : Board) (st : UiState) (p : Int × Int) :
    stepCmds b st (Event.mouseUp 1 p) = handleMouseUp b st p := by
  simp [stepCmds]

theorem handleMouseUp_inactive (b : Board) (st : UiState) (p : Int × Int)
    (h : (st.dragActive && !st.promoPending) = false) :
    handleMouseUp b st p = (st, []) := by
  unfold handleMouseUp
  simp [h]

theorem handleMouseUp_offboard (b : Board) (st : UiState) (p : Int × Int)
    (hd : st.dragActive = true) (hp : st.promoPending = false)
    (hsp : square_at_pixel p = none) :
    handleMouseUp b st p = (resetDrag st, []) := by
  unfold handleMouseUp
  rw [hd, hp, hsp]
  cases st.dragSq <;> rfl

theorem handleMouseUp_resolved (b : Board) (st : UiState) (p : Int × Int)
    (rc : Nat × Nat) (src dst : Nat)
    (hd : st.dragActive = true) (hp : st.promoPending = false)
    (hds : st.dragSq = some src)
    (hsp : square_at_pixel p = some rc)
    (hdm : display_to_model rc.1 rc.2 st.flipped = some dst) :
    handleMouseUp b st p =
      (if needs_promotion b src dst then
        if b.legalMoves.any (fun m =>
            m.from_square == src && m.to_square == dst && truthy m.promotion) then
          (resetDrag {st with promoPending := true, promoSrc := some src,
                              promoDst := some dst}, [])
        else (resetDrag st, [])
      else
        match move_for b (some src) (some dst) none with
        | some m => (resetDrag st, [Cmd.push m])
        | none => (resetDrag st, [])) := by
  unfold handleMouseUp
  rw [hd, hp, hsp, hds]
  dsimp only
  rw [hdm]
  rfl

theorem no_target_any (b : Board) (src dst : Nat)
    (h : ∀ m ∈ b.legalMoves, ¬(m.from_square = src ∧ m.to_square = dst)) :
    b.legalMoves.any (fun m =>
      m.from_square == src && m.to_square == dst && truthy m.promotion) = false := by
  rw [List.any_eq_false]
  intro m hm
  simp only [Bool.and_eq_true, beq_iff_eq, not_and]
  intro h12 hc
  exact absurd h12 (h m hm)

theorem no_target_move_for (b : Board) (src dst : Nat)
    (h : ∀ m ∈ b.legalMoves, ¬(m.from_square = src ∧ m.to_square = dst)) :
    move_for b (some src) (some dst) none = none := by
  unfold move_for
  rw [List.find?_eq_none]
  intro m hm
  simp only [Bool.and_eq_true, beq_iff_eq, Option.some.injEq, not_and]
  intro h12 hc
  exact absurd h12 (h m hm)

theorem invalid_release_all_prop (b : Board) (st : UiState) (src dst : Nat)
    (hds : st.dragSq = some src)
    (hX : (b.legalMoves.all fun m =>
      !(st.dragSq == some m.from_square && m.to_square == dst)) = true) :
    ∀ m ∈ b.legalMoves, ¬(m.from_square = src ∧ m.to_square = dst) := by
  intro m hm
  have := List.all_eq_true.mp hX m hm
  rw [hds] at this
  simp only [Bool.not_eq_eq_eq_not, Bool.not_true, Bool.and_eq_false_iff,
    beq_eq_false_iff_ne, ne_eq, Option.some.injEq] at this
  rintro ⟨h1, h2⟩
  rcases this with h | h
  · exact h h1.symm
  · exact h h2

theorem invalid_release_step (b : Board) (st : UiState) (e : Event)
    (hp : st.promoPending = false) (h : invalid_release b st e = true) :
    (stepCmds b st e).1.dragActive = false ∧
    (stepCmds b st e).1.promoPending = false ∧
    (stepCmds b st e).2 = [] := by
  cases e with
  | quit => simp [invalid_release] at h
  | keydown k => simp [invalid_release] at h
  | mouseDown n p => simp [invalid_release] at h
  | mouseMotion p => simp [invalid_release] at h
  | mouseUp n p =>
    simp only [invalid_release, Bool.and_eq_true, beq_iff_eq] at h
    obtain ⟨hn, hX⟩ := h
    subst hn
    rw [stepCmds_mouseUp]
    cases hd : st.dragActive with
    | false =>
      rw [handleMouseUp_inactive b st p (by simp [hd])]
      exact ⟨hd, hp, rfl⟩
    | true =>
      cases hsp : square_at_pixel p with
      | none =>
        rw [handleMouseUp_offboard b st p hd hp hsp]
        exact ⟨rfl, by simp [resetDrag, hp], rfl⟩
      | some rc =>
        rw [hsp] at hX
        dsimp only at hX
        cases hds : st.dragSq with
        | none =>
          unfold handleMouseUp
          rw [hd, hp, hsp, hds]
          exact ⟨rfl, by simp [resetDrag, hp], rfl⟩
        | some src =>
          cases hdm : display_to_model rc.1 rc.2 st.flipped with
          | none =>
            unfold handleMouseUp
            rw [hd, hp, hsp, hds]
            dsimp only
            rw [hdm]
            exact ⟨rfl, by simp [resetDrag, hp], rfl⟩
          | some dst =>
            rw [hdm] at hX
            dsimp only at hX
            have hno := invalid_release_all_prop b st src dst hds hX
            rw [handleMouseUp_resolved b st p rc src dst hd hp hds hsp hdm]
            split
            · rw [no_target_any b src dst hno]
              exact ⟨rfl, by simp [resetDrag, hp], rfl⟩
            · rw [no_target_move_for b src dst hno]
              exact ⟨rfl, by simp [resetDrag, hp], rfl⟩

theorem invalid_release_noop (b : Board) (st : UiState) (e : Event)
    (hd : st.dragActive = false) (h : invalid_release b st e = true) :
    stepCmds b st e = (st, []) := by
  cases e with
  | quit => simp [invalid_release] at h
  | keydown k => simp [invalid_release] at h
  | mouseDown n p => simp [invalid_release] at h
  | mouseMotion p => simp [invalid_release] at h
  | mouseUp n p =>
    simp only [invalid_release, Bool.and_eq_true, beq_iff_eq] at h
    obtain ⟨hn, -⟩ := h
    subst hn
    rw [stepCmds_mouseUp]
    exact handleMouseUp_inactive b st p (by simp [hd])

theorem invalid_seq_noop (exec : Board → Cmd → Board) (b : Board) (st : UiState)
    (acc : List Cmd) (hd : st.dragActive = false)
    (es : List Event) (hs : invalid_gesture_seq b st es = true) :
    runTrace exec (b, st, acc) es = (b, st, acc) := by
  induction es with
  | nil => rfl
  | cons e es ih =>
    rw [invalid_gesture_seq, Bool.and_eq_true] at hs
    obtain ⟨h1, h2⟩ := hs
    have hnoop := invalid_release_noop b st e hd h1
    have hfold : runTrace exec (b, st, acc) (e :: es) = runTrace exec (b, st, acc) es := by
      simp [runTrace, hnoop]
    rw [hfold]
    rw [hnoop] at h2
    exact ih h2

/-- Claim C3: a pointer-up processed while a drag is active whose release
position resolves outside the board or to a square that is not the
destination of any legal move from the drag source reverts the machine to
Idle with no command submitted; after any nonempty sequence of such invalid
gestures the drag flag and the promotion flag are clear, no command was
ever issued, and the board is unchanged. -/
theorem claim3_invalid_gestures_idle (exec : Board → Cmd → Board) (b : Board)
    (st : UiState) (e : Event) (es : List Event)
    (hp : st.promoPending = false)
    (hs : invalid_gesture_seq b st (e :: es) = true) :
    (runTrace exec (b, st, []) (e :: es)).1 = b ∧
    (runTrace exec (b, st, []) (e :: es)).2.1.dragActive = false ∧
    (runTrace exec (b, st, []) (e :: es)).2.1.promoPending = false ∧
    (runTrace exec (b, st, []) (e :: es)).2.2 = [] := by
  rw [invalid_gesture_seq, Bool.and_eq_true] at hs
  obtain ⟨h1, h2⟩ := hs
  obtain ⟨hda, hpp, hcmds⟩ := invalid_release_step b st e hp h1
  have hfold : runTrace exec (b, st, []) (e :: es)
      = runTrace exec (b, (stepCmds b st e).1, []) es := by
    simp [runTrace, hcmds]
  rw [hfold]
  rw [invalid_seq_noop exec b (stepCmds b st e).1 [] hda es h2]
  exact ⟨rfl, hda, hpp, rfl⟩

/-- Witness for claim C3: dragging from square 12 on board0, a release on
square 56 (no legal move there) followed by a release off the board leave
the machine Idle, the board untouched and the command trace empty. -/
theorem claim3_invalid_gestures_idle_witness :
    (runTrace exec0 (board0, stDrag, [])
      [Event.mouseUp 1 (41, 41), Event.mouseUp 1 (0, 0)]).1 = board0 ∧
    (runTrace exec0 (board0, stDrag, [])
      [Event.mouseUp 1 (41, 41), Event.mouseUp 1 (0, 0)]).2.1.dragActive = false ∧
    (runTrace exec0 (board0, stDrag, [])
      [Event.mouseUp 1 (41, 41), Event.mouseUp 1 (0, 0)]).2.1.promoPending = false ∧
    (runTrace exec0 (board0, stDrag, [])
      [Event.mouseUp 1 (41, 41), Event.mouseUp 1 (0, 0)]).2.2 = [] :=
  claim3_invalid_gestures_idle exec0 board0 stDrag
    (Event.mouseUp 1 (41, 41)) [Event.mouseUp 1 (0, 0)] rfl (by decide)

theorem handleMouseDown_cmds (b : Board) (st : UiState) (p : Int × Int) :
    (handleMouseDown b st p).2 = [] := by
  unfold handleMouseDown
  repeat' split
  all_goals rfl

theorem pushes_while_pending (b : Board) (st : UiState) (e : Event) (mv : Move)
    (src dst : Nat)
    (hp : st.promoPending = true) (hs : st.promoSrc = some src)
    (hd : st.promoDst = some dst)
    (hmem : Cmd.push mv ∈ (stepCmds b st e).2) :
    ∃ kind, ChoiceEvent e kind ∧
      move_for b (some src) (some dst) (some kind) = some mv := by
  cases e with
  | quit => simp [stepCmds] at hmem
  | keydown k =>
    cases k <;>
      simp only [stepCmds, handleKeydown, hp, if_true, reduceCtorEq, if_false,
        reduceIte, key_map, finishPromotion, hs, hd] at hmem
    case kEsc => simp at hmem
    case kF => simp at hmem
    case kS => simp at hmem
    case kH => simp at hmem
    case kOther => simp at hmem
    case kU => split at hmem <;> simp at hmem
    case kR => simp at hmem
    case kQ =>
      rcases hm : move_for b (some src) (some dst) (some QUEEN) with - | m
      · rw [hm] at hmem; simp at hmem
      · rw [hm] at hmem
        simp only [List.mem_singleton, Cmd.push.injEq] at hmem
        subst hmem
        exact ⟨QUEEN, Or.inl ⟨rfl, rfl⟩, hm⟩
    case kB =>
      rcases hm : move_for b (some src) (some dst) (some BISHOP) with - | m
      · rw [hm] at hmem; simp at hmem
      · rw [hm] at hmem
        simp only [List.mem_singleton, Cmd.push.injEq] at hmem
        subst hmem
        exact ⟨BISHOP, Or.inr (Or.inl ⟨rfl, rfl⟩), hm⟩
    case kN =>
      rcases hm : move_for b (some src) (some dst) (some KNIGHT) with - | m
      · rw [hm] at hmem; simp at hmem
      · rw [hm] at hmem
        simp only [List.mem_singleton, Cmd.push.injEq] at hmem
        subst hmem
        exact ⟨KNIGHT, Or.inr (Or.inr (Or.inl ⟨rfl, rfl⟩)), hm⟩
  | mouseDown n p =>
    simp only [stepCmds] at hmem
    split at hmem
    · rw [handleMouseDown_cmds] at hmem
      simp at hmem
    · split at hmem
      · rename_i hcond
        have hn : n = 1 := by
          rcases Bool.and_eq_true_iff.mp hcond with ⟨h1, -⟩
          simpa using h1
        subst hn
        simp only [handlePromoClick] at hmem
        rcases hf : promotion_boxes.find? (fun bx => collide bx.1 p) with - | bx
        · rw [hf] at hmem; simp at hmem
        · rw [hf] at hmem
          simp only [finishPromotion, hs, hd] at hmem
          rcases hm : move_for b (some src) (some dst) (some bx.2) with - | m
          · rw [hm] at hmem; simp at hmem
          · rw [hm] at hmem
            simp only [List.mem_singleton, Cmd.push.injEq] at hmem
            subst hmem
            refine ⟨bx.2, Or.inr (Or.inr (Or.inr ⟨p, rfl, ?_⟩)), hm⟩
            rw [hf]
            rfl
      · simp at hmem
  | mouseMotion p =>
    simp only [stepCmds] at hmem
    split at hmem <;> simp at hmem
  | mouseUp n p =>
    simp only [stepCmds] at hmem
    split at hmem
    · rw [handleMouseUp_inactive b st p (by simp [hp])] at hmem
      simp at hmem
    · simp at hmem

/-- Claim C4: a left-button release of an active drag that resolves to a
destination requiring promotion, when the engine has at least one legal
promoting move for the pair, moves the machine to the pending-promotion
state for exactly that pair with no command submitted; and while a
promotion is pending the only events that can push a move are promotion
choices (hotkey or overlay click) whose kind yields a legal move for the
pending pair. -/
theorem claim4_promotion_completeness :
    (∀ (b : Board) (st : UiState) (p : Int × Int) (rc : Nat × Nat) (src dst : Nat),
      st.dragActive = true → st.promoPending = false → st.dragSq = some src →
      square_at_pixel p = some rc →
      display_to_model rc.1 rc.2 st.flipped = some dst →
      needs_promotion b src dst = true →
      (b.legalMoves.any fun m =>
        m.from_square == src && m.to_square == dst && truthy m.promotion) = true →
      stepCmds b st (Event.mouseUp 1 p) =
        (resetDrag {st with promoPending := true, promoSrc := some src,
                            promoDst := some dst}, [])) ∧
    (∀ (b : Board) (st : UiState) (e : Event) (mv : Move) (src dst : Nat),
      st.promoPending = true → st.promoSrc = some src → st.promoDst = some dst →
      Cmd.push mv ∈ (stepCmds b st e).2 →
      ∃ kind, ChoiceEvent e kind ∧
        move_for b (some src) (some dst) (some kind) = some mv) := by
  constructor
  · intro b st p rc src dst hd hp hds hsp hdm hnp hany
    rw [stepCmds_mouseUp, handleMouseUp_resolved b st p rc src dst hd hp hds hsp hdm,
        if_pos hnp, if_pos hany]
  · intro b st e mv src dst hp hs hd hmem
    exact pushes_while_pending b st e mv src dst hp hs hd hmem

/-- Witness for claim C4: dragging the pawn from 52 and releasing on the
pixel of square 60 enters the pending-promotion state for (52, 60). -/
theorem claim4_promotion_completeness_witness :
    stepCmds board0 stDrag52 (Event.mouseUp 1 (329, 41)) =
      (resetDrag {stDrag52 with promoPending := true, promoSrc := some 52,
                                promoDst := some 60}, []) :=
  claim4_promotion_completeness.1 board0 stDrag52 (329, 41) (0, 4) 52 60
    rfl rfl rfl (by decide) (by decide) (by decide) (by decide)

-- ---------------------------- Claim C9: hint consistency ------------------

/-- Claim C9: a pointer-down that picks up a piece of the side to move
caches the engine's legal moves from that square, and with hints enabled
the rendered indicators are exactly the destinations of those cached
moves, a dot where the target square is empty and a ring where it is
occupied. -/
theorem claim9_hint_consistency (b : Board) (st : UiState) (p : Int × Int)
    (rc : Nat × Nat) (sq : Nat) (piece : Piece)
    (hp : st.promoPending = false) (hh : st.showHints = true)
    (hsp : square_at_pixel p = some rc)
    (hdm : display_to_model rc.1 rc.2 st.flipped = some sq)
    (hpc : b.pieceAt sq = some piece) (hturn : piece.color = b.turn) :
    (stepCmds b st (Event.mouseDown 1 p)).1.dragActive = true ∧
    (stepCmds b st (Event.mouseDown 1 p)).1.dragMoves = legal_moves_from b sq ∧
    (renderedHints b (stepCmds b st (Event.mouseDown 1 p)).1).map Prod.fst
      = (legal_moves_from b sq).map Move.to_square ∧
    ∀ pr ∈ renderedHints b (stepCmds b st (Event.mouseDown 1 p)).1,
      (pr.2 = Hint.dot ↔ b.pieceAt pr.1 = none) := by
  have hstep : stepCmds b st (Event.mouseDown 1 p) =
      ({st with dragActive := true, dragSq := some sq, dragPos := p,
                dragMoves := legal_moves_from b sq}, []) := by
    have h1 : stepCmds b st (Event.mouseDown 1 p) = handleMouseDown b st p := by
      simp [stepCmds, hp]
    rw [h1]
    unfold handleMouseDown
    rw [hsp]
    dsimp only
    rw [hdm]
    dsimp only
    rw [hpc]
    dsimp only
    rw [if_pos hturn]
  rw [hstep]
  refine ⟨rfl, rfl, ?_, ?_⟩
  · simp only [renderedHints, hh, Bool.true_and]
    cases hmv : (legal_moves_from b sq).isEmpty with
    | true =>
      have hnil : legal_moves_from b sq = [] := by
        cases hl : legal_moves_from b sq with
        | nil => rfl
        | cons a l => rw [hl] at hmv; simp at hmv
      rw [hnil]
      simp
    | false =>
      simp only [hmv, Bool.not_false, if_true, draw_move_hints, List.map_map]
      rfl
  · intro pr hpr
    simp only [renderedHints, hh, Bool.true_and] at hpr
    split at hpr
    · simp only [draw_move_hints, List.mem_map] at hpr
      obtain ⟨m, hm, rfl⟩ := hpr
      cases hb : b.pieceAt m.to_square with
      | none => simp [hb]
      | some q => simp [hb]
    · simp at hpr

/-- Witness for claim C9: picking up the pawn on square 12 of board0
renders exactly a dot on 20 and a ring on the capture square 21. -/
theorem claim9_hint_consistency_witness :
    (stepCmds board0 initState (Event.mouseDown 1 (329, 473))).1.dragActive = true ∧
    (stepCmds board0 initState (Event.mouseDown 1 (329, 473))).1.dragMoves
      = legal_moves_from board0 12 ∧
    (renderedHints board0
        (stepCmds board0 initState (Event.mouseDown 1 (329, 473))).1).map Prod.fst
      = (legal_moves_from board0 12).map Move.to_square ∧
    ((20, Hint.dot).2 = Hint.dot ↔ board0.pieceAt (20, Hint.dot).1 = none) := by
  have h := claim9_hint_consistency board0 initState (329, 473) (6, 4) 12
    ⟨true, PAWN⟩ rfl rfl (by decide) (by decide) (by decide) (by decide)
  exact ⟨h.1, h.2.1, h.2.2.1, h.2.2.2 (20, Hint.dot) (by decide)⟩

-- ---------------------------- Claim C5: the shadowed rook key --------------

/-- Claim C5 is contradicted by the source: the promotion key map binds the
rook key (key_map) and the overlay shows the four choices, but in the elif
chain the reset branch fires on that key before the promotion branch is
reached.  With a rook promotion legal for the pending pair, pressing the
rook key resets the board and leaves the promotion pending, instead of
submitting the rook move and returning to Idle. -/
theorem claim5_rook_key_resets_board :
    stepCmds board0 stAwait (Event.keydown Key.kR) = (stAwait, [Cmd.reset]) ∧
    key_map Key.kR = some ROOK ∧
    move_for board0 (some 52) (some 60) (some ROOK) = some ⟨52, 60, some ROOK⟩ ∧
    stAwait.promoPending = true := by
  refine ⟨rfl, rfl, by decide, rfl⟩

-- ---------------------------- Claim C6: reset/undo while interacting -------

/-- Counterexample to claim C6: an undo processed while Dragging (the pop
command is emitted, so the undo really executes) leaves the machine in the
Dragging state with its stale source square, not Idle. -/
theorem claim6_undo_keeps_dragging :
    (stepCmds board0 stDrag (Event.keydown Key.kU)).2 = [Cmd.pop] ∧
    (stepCmds board0 stDrag (Event.keydown Key.kU)).1.dragActive = true ∧
    (stepCmds board0 stDrag (Event.keydown Key.kU)).1.dragSq = some 12 := by
  decide

/-- Claim C6 amended: the undo and reset keys issue their board command but
leave the whole interaction state unchanged, so an active drag or a pending
promotion (with its stored squares) survives them. -/
theorem claim6_amended_reset_undo_keep_state (b : Board) (st : UiState) (k : Key)
    (h : k = Key.kU ∨ k = Key.kR) :
    (stepCmds b st (Event.keydown k)).1 = st := by
  rcases h with h | h <;> subst h <;> rfl

/-- Witness for the amended claim C6 at the undo key on a dragging state. -/
theorem claim6_amended_reset_undo_keep_state_witness :
    (stepCmds board0 stDrag (Event.keydown Key.kU)).1 = stDrag :=
  claim6_amended_reset_undo_keep_state board0 stDrag Key.kU (Or.inl rfl)

-- ---------------------------- Claim C7: events while awaiting --------------

/-- Counterexample to claim C7: while a promotion is pending, the undo key
is neither a promotion selector nor a cancel, yet it is not ignored: it
issues an undo command to the engine (changing the board position) while
the pending promotion stays in place. -/
theorem claim7_undo_not_ignored_while_awaiting :
    (stepCmds board0 stAwait (Event.keydown Key.kU)).2 = [Cmd.pop] ∧
    (stepCmds board0 stAwait (Event.keydown Key.kU)).1.promoPending = true := by
  decide

/-- Claim C7 amended: while AwaitingPromotionChoice, unbound events leave
the state untouched and issue no command; but the global keys keep their
effect (undo and reset mutate the board while the pending promotion
survives), and there is no cancel-to-Idle action: escape quits the whole
program. -/
theorem claim7_amended_neutral_events (b : Board) (st : UiState) (e : Event)
    (hp : st.promoPending = true) (hd : st.dragActive = false)
    (he : OverlayNeutral e) : stepCmds b st e = (st, []) := by
  rcases he with ⟨p, rfl⟩ | ⟨n, p, rfl⟩ | ⟨n, p, rfl, hn⟩ | rfl
  · simp [stepCmds, hd]
  · simp only [stepCmds]
    split
    · exact handleMouseUp_inactive b st p (by simp [hp])
    · rfl
  · rcases hn with hn | hf
    · simp [stepCmds, hn]
    · by_cases hn1 : n = 1
      · subst hn1
        simp [stepCmds, hp, handlePromoClick, hf]
      · simp [stepCmds, hn1]
  · simp [stepCmds, handleKeydown, key_map, hp]

/-- Witness for the amended claim C7: pointer motion over the open overlay
is a no-op. -/
theorem claim7_amended_neutral_events_witness :
    stepCmds board0 stAwait (Event.mouseMotion (5, 5)) = (stAwait, []) :=
  claim7_amended_neutral_events board0 stAwait (Event.mouseMotion (5, 5)) rfl rfl
    (Or.inl ⟨(5, 5), rfl⟩)

end ChessUI
